import Mathlib

/-!
Verification development for the entity identity, schema-resolution and
backend-lifecycle core of the dlite-entities-service repository.

The Python sources are shallowly embedded: pydantic models become Lean
structures over `Option String` fields (a URL-valued field is carried as its
string representation; pydantic's URL normalisation is not modelled),
fallible code returns `Except`/`Option`, and the process-wide configuration
object `CONFIG` becomes an explicit `ServiceSettings` parameter.
-/

set_option maxHeartbeats 1000000

/-! ## Service configuration (`service/config.py`)

`ServiceSettings.base_url` is the string form of the configured base URL
(trailing slashes stripped by `_strip_ending_slashes`; default
`http://onto-ns.com/meta`). -/

structure ServiceSettings where
  base_url : String
deriving DecidableEq

/-- Python `str()` applied to an optional value: `str(None) = "None"`,
as happens in `get_uri`'s f-string and in `get_version`'s `str(entity.uri)`. -/
def pyStr : Option String → String
  | some s => s
  | none => "None"

/-- Python's `str.startswith`, computed on the character lists. -/
def pyStartsWith (s p : String) : Bool :=
  s.toList.take p.toList.length = p.toList

/-- Python's `str.endswith`, computed on the character lists. -/
def pyEndsWith (s p : String) : Bool :=
  s.toList.drop (s.toList.length - p.toList.length) = p.toList

/-- Does the character list that remains after dropping the scheme of length
`n` start with a nonempty host (a character other than `/`)? -/
def validHostAfter (s : String) (n : Nat) : Bool :=
  match s.toList.drop n with
  | [] => false
  | c :: _ => c ≠ '/'

/-- Well-formedness of an absolute http(s) URL, abstracting pydantic's
`AnyHttpUrl` parsing: an `http://` or `https://` scheme followed by a
nonempty host. -/
def isHttpUrl (s : String) : Bool :=
  (pyStartsWith s "http://" && validHostAfter s 7)
    || (pyStartsWith s "https://" && validHostAfter s 8)

/-! ## Identity codec (`models/__init__.py`)

`URI_REGEX = ^(?P<namespace>https?://[^/]+)/(?P<version>[^/]+)/(?P<name>[^/#?]+)$`.

Because each character class excludes `/`, a matching string decomposes
uniquely: a scheme, then exactly three `/`-separated nonempty segments after
the scheme, the last free of `#` and `?`.  `uriMatchList` implements exactly
that decomposition on character lists. -/

structure EntityIdentity where
  namespace_ : String
  version : String
  name : String
deriving DecidableEq

/-- Match the part of the URI after the scheme: `[^/]+/[^/]+/[^/#?]+$`. -/
def uriSegments (scheme rest : List Char) :
    Option (List Char × List Char × List Char) :=
  match rest.splitOn '/' with
  | [host, ver, nm] =>
    if host ≠ [] ∧ ver ≠ [] ∧ nm ≠ [] ∧ '#' ∉ nm ∧ '?' ∉ nm then
      some (scheme ++ host, ver, nm)
    else none
  | _ => none

/-- Match `URI_REGEX` against a character list, returning the three groups
(namespace including the scheme, version, name). -/
def uriMatchList (cs : List Char) :
    Option (List Char × List Char × List Char) :=
  if cs.take 8 = "https://".toList then uriSegments "https://".toList (cs.drop 8)
  else if cs.take 7 = "http://".toList then uriSegments "http://".toList (cs.drop 7)
  else none

/-- Model of `URI_REGEX.match`, packaged as the parsed `EntityIdentity` on success. -/
def uriRegexMatch (s : String) : Option EntityIdentity :=
  (uriMatchList s.toList).map fun g => ⟨String.mk g.1, String.mk g.2.1, String.mk g.2.2⟩

/-! ## Python helpers for the version-increment algorithm -/

/-- Whitespace stripped by Python's `int(str)` conversion (ASCII subset). -/
def isPySpace (c : Char) : Bool :=
  c = ' ' || c = '\t' || c = '\n' || c = '\r' || c = '\x0b' || c = '\x0c'

/-- Digit run of a Python integer literal after its first digit: further
digits, with single underscores allowed between digits. -/
def pyDigits (acc : Nat) : List Char → Option Nat
  | [] => some acc
  | '_' :: c :: rest =>
    if c.isDigit then pyDigits (acc * 10 + (c.toNat - 48)) rest else none
  | c :: rest =>
    if c.isDigit then pyDigits (acc * 10 + (c.toNat - 48)) rest else none

/-- Unsigned digit string of a Python integer literal: at least one digit. -/
def pyNat : List Char → Option Nat
  | [] => none
  | c :: rest => if c.isDigit then pyDigits (c.toNat - 48) rest else none

/-- Python's `int(str)`: strip surrounding whitespace, optional sign, then a
nonempty digit string (underscores allowed between digits); `none` models the
`ValueError` raised on any other input. -/
def pyInt (s : String) : Option Int :=
  let cs := ((s.toList.dropWhile isPySpace).reverse.dropWhile isPySpace).reverse
  match cs with
  | '+' :: rest => (pyNat rest).map Int.ofNat
  | '-' :: rest => (pyNat rest).map fun n => -(n : Int)
  | rest => (pyNat rest).map Int.ofNat

/-! ## Data models (`models/soft5.py`, resolved entities) -/

structure SOFT5Dimension where
  name : String
  description : String
deriving DecidableEq

structure SOFT5Property where
  name : Option String
  type_ : String
  ref : Option String
  dims : Option (List String)
  unit : Option String
  description : String
deriving DecidableEq

structure SOFT5Entity where
  name : Option String
  version : Option String
  namespace_ : Option String
  uri : Option String
  meta : String
  description : String
  dimensions : List SOFT5Dimension
  properties : List SOFT5Property
deriving DecidableEq

/-- Modelled from the spec: the repository imports `SOFT7Entity` from
`models/soft7.py`, a file not among the provided sources.  The spec describes
Dialect-B as "structurally similar but with stricter per-property typed
shapes", sharing the identity fields, the fixed `meta` marker, the base-URL
invariant and the cross-field rule with Dialect-A, and mutually exclusive
with Dialect-A under resolution.  We model its per-property shape as typed,
without the free-standing `name` of a SOFT5 property. -/
structure SOFT7Property where
  type_ : String
  ref : Option String
  shape : Option (List String)
  unit : Option String
  description : String
deriving DecidableEq

/-- Modelled from the spec: Dialect-B's entity shape (see `SOFT7Property`);
properties are a name-keyed mapping rather than an array. -/
structure SOFT7Entity where
  name : Option String
  version : Option String
  namespace_ : Option String
  uri : Option String
  meta : String
  description : String
  dimensions : List SOFT5Dimension
  properties : List (String × SOFT7Property)
deriving DecidableEq

/-- Model of `VersionedSOFTEntity = SOFT7Entity | SOFT5Entity`; `get_args` of this
union yields the dialects in this order, newest first. -/
abbrev VersionedSOFTEntity := SOFT7Entity ⊕ SOFT5Entity

/-! ## Raw documents

The untyped mapping handed to the resolver, restricted to the fields the
dialects inspect.  A key that is absent and a key bound to Python `None` are
both modelled as `none` (the code only ever tests `data.get(key) is None`).
The `properties` value is either an array (Dialect-A's shape) or a name-keyed
mapping (Dialect-B's shape). -/

structure RawDimension where
  name : Option String
  description : Option String
deriving DecidableEq

structure Raw5Property where
  name : Option String
  type_ : Option String
  ref : Option String
  dims : Option (List String)
  unit : Option String
  description : Option String
deriving DecidableEq

structure Raw7Property where
  type_ : Option String
  ref : Option String
  shape : Option (List String)
  unit : Option String
  description : Option String
deriving DecidableEq

inductive RawProperties where
  | array (ps : List Raw5Property)
  | mapping (ps : List (String × Raw7Property))
deriving DecidableEq

structure RawDoc where
  name : Option String
  version : Option String
  namespace_ : Option String
  uri : Option String
  meta : Option String
  description : Option String
  dimensions : Option (List RawDimension)
  properties : Option RawProperties
deriving DecidableEq

/-- A pydantic `ValidationError` for one dialect, abstracted to its message. -/
structure ValidationFailure where
  msg : String
deriving DecidableEq

/-- The single supported metadata-schema marker URI (the default of the
`meta` field in `soft5.py`). -/
def ENTITY_SCHEMA_URI : String := "http://onto-ns.com/meta/0.3/EntitySchema"

/-! ## Dialect validation (`models/soft5.py` validators) -/

/-- Model of `_check_cross_dependent_fields` (`model_validator(mode="before")`):
`name`, `version` and `namespace` must be all set or all unset. -/
def check_cross_dependent_fields (data : RawDoc) : Except ValidationFailure RawDoc :=
  if (data.name.isNone || data.version.isNone || data.namespace_.isNone)
      && !(data.name.isNone && data.version.isNone && data.namespace_.isNone) then
    .error ⟨"Either all of name, version, and namespace must be set or all must be unset."⟩
  else .ok data

/-- Pydantic's `AnyHttpUrl` parse of a URL-shaped field, which runs before
any field validator. -/
def parseHttpUrl (value : String) : Except ValidationFailure String :=
  if isHttpUrl value then .ok value
  else .error ⟨"input is not a well-formed absolute http(s) URL"⟩

/-- Model of `_validate_base_url` (field validator on `uri` and `namespace`): the
string form must start with the configured base URL. -/
def validate_base_url (cfg : ServiceSettings) (value : String) :
    Except ValidationFailure String :=
  match parseHttpUrl value with
  | .error f => .error f
  | .ok v =>
    if pyStartsWith v cfg.base_url then .ok v
    else .error ⟨"This service only works with DLite/SOFT entities at the base URL."⟩

/-- Model of `_only_support_onto_ns` (field validator on `meta`): only EntitySchema
v0.3 at onto-ns.com is accepted. -/
def only_support_onto_ns (value : String) : Except ValidationFailure String :=
  match parseHttpUrl value with
  | .error f => .error f
  | .ok v =>
    if v = ENTITY_SCHEMA_URI then .ok v
    else .error ⟨"This service only works with DLite/SOFT entities using EntitySchema v0.3 at onto-ns.com as the metadata entity."⟩

/-- Validation of an optional field: an absent field is skipped. -/
def validateOptField (f : String → Except ValidationFailure String) :
    Option String → Except ValidationFailure (Option String)
  | none => .ok none
  | some v => (f v).map some

/-- Validation of one raw dimension: `name` and `description` are required. -/
def validateDimension (d : RawDimension) : Except ValidationFailure SOFT5Dimension :=
  match d.name, d.description with
  | some n, some desc => .ok ⟨n, desc⟩
  | _, _ => .error ⟨"dimension: field required"⟩

/-- Validation of one raw SOFT5 property: `type` and `description` are
required; `$ref`, when present, must be a well-formed URL. -/
def validate5Property (p : Raw5Property) : Except ValidationFailure SOFT5Property :=
  match p.type_, p.description with
  | some t, some desc =>
    (validateOptField parseHttpUrl p.ref).map fun r =>
      ⟨p.name, t, r, p.dims, p.unit, desc⟩
  | _, _ => .error ⟨"property: field required"⟩

/-- Construction of a `SOFT5Entity` from a raw document, i.e. pydantic
validation of the `SOFT5Entity` model: the before-mode cross-field check,
URL parsing plus `_validate_base_url` on `namespace` and `uri`,
`_only_support_onto_ns` on `meta` (default `ENTITY_SCHEMA_URI`), defaulted
`description` and `dimensions`, and the required array of properties. -/
def validateSOFT5 (cfg : ServiceSettings) (data : RawDoc) :
    Except ValidationFailure SOFT5Entity :=
  match check_cross_dependent_fields data with
  | .error f => .error f
  | .ok d =>
    match validateOptField (validate_base_url cfg) d.namespace_ with
    | .error f => .error f
    | .ok nsv =>
      match validateOptField (validate_base_url cfg) d.uri with
      | .error f => .error f
      | .ok uriv =>
        match only_support_onto_ns (d.meta.getD ENTITY_SCHEMA_URI) with
        | .error f => .error f
        | .ok metav =>
          match (d.dimensions.getD []).mapM validateDimension with
          | .error f => .error f
          | .ok dims =>
            match d.properties with
            | some (.array ps) =>
              match ps.mapM validate5Property with
              | .error f => .error f
              | .ok props =>
                .ok ⟨d.name, d.version, nsv, uriv, metav,
                     d.description.getD "", dims, props⟩
            | some (.mapping _) => .error ⟨"properties: value is not a valid list"⟩
            | none => .error ⟨"properties: field required"⟩

/-- Modelled from the spec: validation of one Dialect-B property
(`models/soft7.py` is missing from the sources): `type` and `description`
required, `$ref` a well-formed URL when present. -/
def validate7Property (p : Raw7Property) : Except ValidationFailure SOFT7Property :=
  match p.type_, p.description with
  | some t, some desc =>
    (validateOptField parseHttpUrl p.ref).map fun r =>
      ⟨t, r, p.shape, p.unit, desc⟩
  | _, _ => .error ⟨"property: field required"⟩

/-- Modelled from the spec: pydantic validation of the Dialect-B
(`SOFT7Entity`) model, structurally similar to `validateSOFT5` — same
cross-field rule, base-URL invariant on `namespace`/`uri` and fixed `meta`
marker — but requiring the stricter mapping shape for `properties`. -/
def validateSOFT7 (cfg : ServiceSettings) (data : RawDoc) :
    Except ValidationFailure SOFT7Entity :=
  match check_cross_dependent_fields data with
  | .error f => .error f
  | .ok d =>
    match validateOptField (validate_base_url cfg) d.namespace_ with
    | .error f => .error f
    | .ok nsv =>
      match validateOptField (validate_base_url cfg) d.uri with
      | .error f => .error f
      | .ok uriv =>
        match only_support_onto_ns (d.meta.getD ENTITY_SCHEMA_URI) with
        | .error f => .error f
        | .ok metav =>
          match (d.dimensions.getD []).mapM validateDimension with
          | .error f => .error f
          | .ok dims =>
            match d.properties with
            | some (.mapping ps) =>
              match ps.mapM (fun nm_p =>
                  (validate7Property nm_p.2).map fun p => (nm_p.1, p)) with
              | .error f => .error f
              | .ok props =>
                .ok ⟨d.name, d.version, nsv, uriv, metav,
                     d.description.getD "", dims, props⟩
            | some (.array _) => .error ⟨"properties: value is not a valid mapping"⟩
            | none => .error ⟨"properties: field required"⟩

/-! ## Entity resolver (`soft_entity` in `models/__init__.py`) -/

/-- The dialect constructors in the order `get_args(VersionedSOFTEntity)`
iterates them: `SOFT7Entity` first (newest), then `SOFT5Entity`. -/
def soft_dialects (cfg : ServiceSettings) :
    List (RawDoc → Except ValidationFailure VersionedSOFTEntity) :=
  [fun d => (validateSOFT7 cfg d).map Sum.inl,
   fun d => (validateSOFT5 cfg d).map Sum.inr]

/-- The `for ... try ... except ValidationError ... else` loop of
`soft_entity`: try each dialect in order, return the first success, or the
accumulated error list (one error appended per failed dialect). -/
def resolveLoop (cs : List (RawDoc → Except ValidationFailure VersionedSOFTEntity))
    (d : RawDoc) (errs : List ValidationFailure) :
    VersionedSOFTEntity ⊕ List ValidationFailure :=
  match cs with
  | [] => .inr errs
  | c :: rest =>
    match c d with
    | .ok e => .inl e
    | .error f => resolveLoop rest d (errs ++ [f])

/-- Outcome of `soft_entity`: a typed entity, the returned error list (when
`return_errors` is true), or the raised aggregate `ValueError` carrying the
same list. -/
inductive SoftEntityResult where
  | entity (e : VersionedSOFTEntity)
  | errors (errs : List ValidationFailure)
  | fatal (errs : List ValidationFailure)
deriving DecidableEq

/-- Model of `soft_entity(*args, return_errors=..., **kwargs)`. -/
def soft_entity (cfg : ServiceSettings) (return_errors : Bool) (d : RawDoc) :
    SoftEntityResult :=
  match resolveLoop (soft_dialects cfg) d [] with
  | .inl e => .entity e
  | .inr errs => if return_errors then .errors errs else .fatal errs

/-! ## Duck-typed attribute access shared by both dialects -/

def entityName : VersionedSOFTEntity → Option String
  | .inl e => e.name
  | .inr e => e.name

def entityVersion : VersionedSOFTEntity → Option String
  | .inl e => e.version
  | .inr e => e.version

def entityNamespace : VersionedSOFTEntity → Option String
  | .inl e => e.namespace_
  | .inr e => e.namespace_

def entityUri : VersionedSOFTEntity → Option String
  | .inl e => e.uri
  | .inr e => e.uri

def entityMeta : VersionedSOFTEntity → String
  | .inl e => e.meta
  | .inr e => e.meta

/-! ## `get_uri`, `get_version`, `get_updated_version`
(`models/__init__.py`) -/

/-- Model of `get_uri`: the stored `uri` when set, else the f-string
`f"{entity.namespace}/{entity.version}/{entity.name}"` (Python renders an
unset part as `None`). -/
def get_uri (entity : VersionedSOFTEntity) : String :=
  match entityUri entity with
  | some u => u
  | none =>
    pyStr (entityNamespace entity) ++ "/" ++ pyStr (entityVersion entity)
      ++ "/" ++ pyStr (entityName entity)

/-- A Python `ValueError` raised by the identity codec. -/
inductive ValueError where
  | cannotParseURI
  | invalidIntLiteral
  | unsupportedVersionShape
deriving DecidableEq

/-- Model of `get_version`: `entity.version` when set, else the `version` group of
`URI_REGEX` matched against `str(entity.uri)`; else a `ValueError`. -/
def get_version (entity : VersionedSOFTEntity) : Except ValueError String :=
  match entityVersion entity with
  | some v => .ok v
  | none =>
    match uriRegexMatch (pyStr (entityUri entity)) with
    | some i => .ok i.version
    | none => .error .cannotParseURI

/-- Python's `str.split(".")`: the dot-separated components, keeping empty
pieces (so the empty string has the single component `""`). -/
def pySplitDot (s : String) : List String :=
  (s.toList.splitOn '.').map String.mk

/-- Version-increment algorithm, the body of `get_updated_version` applied
to the current version string: split on dots; 1 component appends `.1`,
2 components append `.1`, 3 components increment `int(PATCH)` (whose
`ValueError` on a non-integer is `invalidIntLiteral`); any other component
count raises the unsupported-shape `ValueError`. -/
def next_version (current : String) : Except ValueError String :=
  match pySplitDot current with
  | [major] => .ok (major ++ ".1")
  | [major, minor] => .ok (major ++ "." ++ minor ++ ".1")
  | [major, minor, patch] =>
    match pyInt patch with
    | some n => .ok (major ++ "." ++ minor ++ "." ++ toString (n + 1))
    | none => .error .invalidIntLiteral
  | _ => .error .unsupportedVersionShape

/-- Model of `get_updated_version`: `next_version` applied to `get_version`. -/
def get_updated_version (entity : VersionedSOFTEntity) : Except ValueError String := do
  next_version (← get_version entity)

/-! ## Identity build/parse for the round-trip property -/

/-- Canonical URI built from identity parts, routed through `get_uri` with
the `uri` field unset — the concatenation the spec calls `build`. -/
def build_uri (i : EntityIdentity) : String :=
  get_uri (Sum.inr
    { name := some i.name, version := some i.version,
      namespace_ := some i.namespace_, uri := none,
      meta := ENTITY_SCHEMA_URI, description := "",
      dimensions := [], properties := [] })

/-- The spec's `parse`: match the URI against `URI_REGEX`. -/
def parse_uri (uri : String) : Option EntityIdentity :=
  uriRegexMatch uri

/-- Validity of an `EntityIdentity` in the words of the round-trip claim
(spec-side definition, for comparison with the code's grammar): namespace a
well-formed absolute http(s) URL with no trailing slash, version and name
non-empty and slash-free. -/
def claimValidIdentity (i : EntityIdentity) : Bool :=
  isHttpUrl i.namespace_ && !(pyEndsWith i.namespace_ "/")
    && !(i.version.toList.isEmpty) && !(i.version.toList.contains '/')
    && !(i.name.toList.isEmpty) && !(i.name.toList.contains '/')

/-! ## Backend (`service/backend/backend.py`) -/

structure BackendSettings
deriving DecidableEq

inductive BackendError where
  | alreadyClosed
deriving DecidableEq

/-- Mutable state of a `Backend` instance: its settings and the
`_is_closed` flag. -/
structure BackendState where
  settings : BackendSettings
  is_closed : Bool
deriving DecidableEq

/-- Model of `Backend.__init__`: store the settings and set `_is_closed = False`. -/
def Backend.init (settings : BackendSettings) : BackendState :=
  ⟨settings, false⟩

/-- Model of `Backend.close`: raise `BackendError` when already closed (leaving the
state untouched), else set `_is_closed = True`.  The first component models
the raised exception, the second the state after the call. -/
def Backend.close (s : BackendState) : Option BackendError × BackendState :=
  if s.is_closed then (some .alreadyClosed, s)
  else (none, { s with is_closed := true })

/-- Kinds of argument `Backend.__contains__` can receive: a raw mapping, a
string, a typed entity (`SOFTModelTypes` — modelled from the spec, as the
tuple of entity classes is defined in a models module missing from the
sources), or anything else. -/
inductive ContainsItem where
  | dict (d : RawDoc)
  | str (s : String)
  | entity (e : VersionedSOFTEntity)
  | other

/-- Model of `Backend.__contains__`, parameterised by the abstract `read` method: a
dict is first resolved with `soft_entity(return_errors=True)` and a failure
list means not-contained; a resolved dict or typed entity is looked up by
`get_uri`; a string is looked up as the identity itself. -/
def Backend.contains (cfg : ServiceSettings) (readRecord : String → Option RawDoc)
    (item : ContainsItem) : Bool :=
  match item with
  | .dict d =>
    match soft_entity cfg true d with
    | .errors _ => false
    | .entity e => (readRecord (get_uri e)).isSome
    | .fatal _ => false
  | .str s => (readRecord s).isSome
  | .entity e => (readRecord (get_uri e)).isSome
  | .other => false

deriving instance DecidableEq for Except

/-! ## Concrete sample values used by witnesses and counterexamples -/

/-- The default service configuration: `base_url = "http://onto-ns.com/meta"`. -/
def cfg0 : ServiceSettings := ⟨"http://onto-ns.com/meta"⟩

/-- A raw document that validates under Dialect-A while its stored `uri`
does not agree with the URI built from its `namespace`/`version`/`name`. -/
def mismatchDoc : RawDoc :=
  { name := some "Bar", version := some "2.0",
    namespace_ := some "http://onto-ns.com/meta",
    uri := some "http://onto-ns.com/meta/1.0/Foo",
    meta := none, description := none, dimensions := none,
    properties := some (.array
      [{ name := none, type_ := some "string", ref := none,
         dims := none, unit := none, description := some "a property" }]) }

/-- The `SOFT5Entity` that `validateSOFT5 cfg0 mismatchDoc` produces. -/
def mismatchEntity : SOFT5Entity :=
  { name := some "Bar", version := some "2.0",
    namespace_ := some "http://onto-ns.com/meta",
    uri := some "http://onto-ns.com/meta/1.0/Foo",
    meta := ENTITY_SCHEMA_URI, description := "",
    dimensions := [],
    properties := [{ name := none, type_ := "string", ref := none,
                     dims := none, unit := none, description := "a property" }] }

/-- The empty raw document: no dialect validates it (`properties` missing). -/
def emptyDoc : RawDoc :=
  { name := none, version := none, namespace_ := none, uri := none,
    meta := none, description := none, dimensions := none, properties := none }

/-- A raw document supplying `name` and `version` but no `namespace` — a
proper subset of the cross-dependent identity fields. -/
def subsetDoc : RawDoc :=
  { name := some "Foo", version := some "1.0", namespace_ := none, uri := none,
    meta := none, description := none, dimensions := none,
    properties := some (.array []) }

/-- A sample entity with neither `version` nor `uri` set. -/
def bareEntity : SOFT5Entity :=
  { name := none, version := none, namespace_ := none, uri := none,
    meta := ENTITY_SCHEMA_URI, description := "", dimensions := [],
    properties := [] }

/-! ## Helper lemmas -/

theorem check_cross_ok {data d : RawDoc}
    (h : check_cross_dependent_fields data = .ok d) :
    d = data ∧
      ((data.name = none ∧ data.version = none ∧ data.namespace_ = none) ∨
       (data.name ≠ none ∧ data.version ≠ none ∧ data.namespace_ ≠ none)) := by
  unfold check_cross_dependent_fields at h
  rcases hn : data.name with _ | n <;> rcases hv : data.version with _ | v <;>
    rcases hns : data.namespace_ with _ | ns <;> rw [hn, hv, hns] at h <;>
    simp at h <;> exact ⟨h.symm, by simp [hn, hv, hns]⟩

theorem check_cross_subset {data : RawDoc}
    (h1 : data.name = none ∨ data.version = none ∨ data.namespace_ = none)
    (h2 : ¬(data.name = none ∧ data.version = none ∧ data.namespace_ = none)) :
    ∃ f, check_cross_dependent_fields data = .error f := by
  unfold check_cross_dependent_fields
  rcases hn : data.name with _ | n <;> rcases hv : data.version with _ | v <;>
    rcases hns : data.namespace_ with _ | ns
  · exact absurd ⟨hn, hv, hns⟩ h2
  · exact ⟨_, rfl⟩
  · exact ⟨_, rfl⟩
  · exact ⟨_, rfl⟩
  · exact ⟨_, rfl⟩
  · exact ⟨_, rfl⟩
  · exact ⟨_, rfl⟩
  · rcases h1 with h | h | h <;> simp [hn, hv, hns] at h

theorem parseHttpUrl_ok {v w : String} (h : parseHttpUrl v = .ok w) :
    w = v ∧ isHttpUrl v = true := by
  unfold parseHttpUrl at h
  by_cases hurl : isHttpUrl v
  · rw [if_pos hurl] at h
    exact ⟨(Except.ok.inj h).symm, hurl⟩
  · rw [if_neg (by simpa using hurl)] at h
    exact absurd h (by simp)

theorem validate_base_url_ok {cfg : ServiceSettings} {v u : String}
    (h : validate_base_url cfg v = .ok u) :
    u = v ∧ isHttpUrl v = true ∧ pyStartsWith v cfg.base_url = true := by
  unfold validate_base_url at h
  split at h
  · exact absurd h (by simp)
  · next w hw =>
    obtain ⟨rfl, hurl⟩ := parseHttpUrl_ok hw
    by_cases hpre : pyStartsWith w cfg.base_url
    · rw [if_pos hpre] at h
      exact ⟨(Except.ok.inj h).symm, hurl, hpre⟩
    · rw [if_neg hpre] at h
      exact absurd h (by simp)

theorem validate_base_url_bad {cfg : ServiceSettings} {v : String}
    (hpre : pyStartsWith v cfg.base_url = false) :
    ∃ f, validate_base_url cfg v = .error f := by
  cases hb : validate_base_url cfg v with
  | error f => exact ⟨f, rfl⟩
  | ok u =>
    obtain ⟨rfl, _, hpre'⟩ := validate_base_url_ok hb
    rw [hpre] at hpre'
    exact absurd hpre' (by simp)

theorem only_support_onto_ns_ok {v u : String}
    (h : only_support_onto_ns v = .ok u) :
    u = v ∧ v = ENTITY_SCHEMA_URI := by
  unfold only_support_onto_ns at h
  split at h
  · exact absurd h (by simp)
  · next w hw =>
    obtain ⟨rfl, _⟩ := parseHttpUrl_ok hw
    by_cases heq : w = ENTITY_SCHEMA_URI
    · rw [if_pos heq] at h
      exact ⟨(Except.ok.inj h).symm, heq⟩
    · rw [if_neg heq] at h
      exact absurd h (by simp)

theorem only_support_onto_ns_bad {v : String} (hne : v ≠ ENTITY_SCHEMA_URI) :
    ∃ f, only_support_onto_ns v = .error f := by
  cases hb : only_support_onto_ns v with
  | error f => exact ⟨f, rfl⟩
  | ok u =>
    obtain ⟨_, hv⟩ := only_support_onto_ns_ok hb
    exact absurd hv hne

theorem validateOptField_ok {f : String → Except ValidationFailure String}
    {o r : Option String} (h : validateOptField f o = .ok r) :
    (o = none ∧ r = none) ∨ ∃ v u, o = some v ∧ f v = .ok u ∧ r = some u := by
  cases o with
  | none =>
    left
    refine ⟨rfl, ?_⟩
    simpa [validateOptField] using h.symm
  | some v =>
    right
    cases hf : f v with
    | error fe => simp [validateOptField, hf, Except.map] at h
    | ok u =>
      refine ⟨v, u, rfl, hf, ?_⟩
      simp only [validateOptField, hf, Except.map, Except.ok.injEq] at h
      exact h.symm

theorem validateOptBase_ok {cfg : ServiceSettings} {o r : Option String}
    (h : validateOptField (validate_base_url cfg) o = .ok r) :
    r = o ∧ ∀ v, o = some v →
      isHttpUrl v = true ∧ pyStartsWith v cfg.base_url = true := by
  rcases validateOptField_ok h with ⟨ho, hr⟩ | ⟨v, u, ho, hv, hr⟩
  · refine ⟨hr.trans ho.symm, ?_⟩
    intro w hw
    rw [ho] at hw
    exact absurd hw (by simp)
  · obtain ⟨rfl, hurl, hpre⟩ := validate_base_url_ok hv
    refine ⟨by rw [hr, ho], ?_⟩
    intro w hw
    rw [ho] at hw
    injection hw with hw
    subst hw
    exact ⟨hurl, hpre⟩

theorem meta_field_ok {o : Option String} {u : String}
    (h : only_support_onto_ns (o.getD ENTITY_SCHEMA_URI) = .ok u) :
    u = ENTITY_SCHEMA_URI ∧ ∀ m, o = some m → m = ENTITY_SCHEMA_URI := by
  obtain ⟨hu, hv⟩ := only_support_onto_ns_ok h
  refine ⟨hu.trans hv, ?_⟩
  intro m hm
  rw [hm] at hv
  simpa using hv

theorem validateSOFT5_ok {cfg : ServiceSettings} {data : RawDoc} {e : SOFT5Entity}
    (h : validateSOFT5 cfg data = .ok e) :
    e.name = data.name ∧ e.version = data.version ∧
    e.namespace_ = data.namespace_ ∧ e.uri = data.uri ∧
    e.meta = ENTITY_SCHEMA_URI ∧
    (∀ u, data.uri = some u →
      isHttpUrl u = true ∧ pyStartsWith u cfg.base_url = true) ∧
    (∀ ns, data.namespace_ = some ns →
      isHttpUrl ns = true ∧ pyStartsWith ns cfg.base_url = true) ∧
    (∀ m, data.meta = some m → m = ENTITY_SCHEMA_URI) ∧
    ((data.name = none ∧ data.version = none ∧ data.namespace_ = none) ∨
     (data.name ≠ none ∧ data.version ≠ none ∧ data.namespace_ ≠ none)) := by
  unfold validateSOFT5 at h
  split at h
  · exact absurd h (by simp)
  next d hc =>
  obtain ⟨rfl, hcross⟩ := check_cross_ok hc
  split at h
  · exact absurd h (by simp)
  next nsv hns =>
  split at h
  · exact absurd h (by simp)
  next uriv huri =>
  split at h
  · exact absurd h (by simp)
  next metav hmeta =>
  split at h
  · exact absurd h (by simp)
  next dims hdims =>
  split at h
  next ps =>
    split at h
    · exact absurd h (by simp)
    next props hprops =>
      injection h with h
      subst h
      obtain ⟨hnsEq, hnsChk⟩ := validateOptBase_ok hns
      obtain ⟨huriEq, huriChk⟩ := validateOptBase_ok huri
      obtain ⟨hmetaEq, hmetaChk⟩ := meta_field_ok hmeta
      exact ⟨rfl, rfl, hnsEq, huriEq, hmetaEq, huriChk, hnsChk, hmetaChk, hcross⟩
  · exact absurd h (by simp)
  · exact absurd h (by simp)

theorem validateSOFT7_ok {cfg : ServiceSettings} {data : RawDoc} {e : SOFT7Entity}
    (h : validateSOFT7 cfg data = .ok e) :
    e.name = data.name ∧ e.version = data.version ∧
    e.namespace_ = data.namespace_ ∧ e.uri = data.uri ∧
    e.meta = ENTITY_SCHEMA_URI ∧
    (∀ u, data.uri = some u →
      isHttpUrl u = true ∧ pyStartsWith u cfg.base_url = true) ∧
    (∀ ns, data.namespace_ = some ns →
      isHttpUrl ns = true ∧ pyStartsWith ns cfg.base_url = true) ∧
    (∀ m, data.meta = some m → m = ENTITY_SCHEMA_URI) ∧
    ((data.name = none ∧ data.version = none ∧ data.namespace_ = none) ∨
     (data.name ≠ none ∧ data.version ≠ none ∧ data.namespace_ ≠ none)) := by
  unfold validateSOFT7 at h
  split at h
  · exact absurd h (by simp)
  next d hc =>
  obtain ⟨rfl, hcross⟩ := check_cross_ok hc
  split at h
  · exact absurd h (by simp)
  next nsv hns =>
  split at h
  · exact absurd h (by simp)
  next uriv huri =>
  split at h
  · exact absurd h (by simp)
  next metav hmeta =>
  split at h
  · exact absurd h (by simp)
  next dims hdims =>
  split at h
  next ps =>
    split at h
    · exact absurd h (by simp)
    next props hprops =>
      injection h with h
      subst h
      obtain ⟨hnsEq, hnsChk⟩ := validateOptBase_ok hns
      obtain ⟨huriEq, huriChk⟩ := validateOptBase_ok huri
      obtain ⟨hmetaEq, hmetaChk⟩ := meta_field_ok hmeta
      exact ⟨rfl, rfl, hnsEq, huriEq, hmetaEq, huriChk, hnsChk, hmetaChk, hcross⟩
  · exact absurd h (by simp)
  · exact absurd h (by simp)

/-! ## Claim theorems -/

/-- C3: `next_version` (the algorithm of `get_updated_version`) maps a
1-component version MAJOR to MAJOR.1, a 2-component MAJOR.MINOR to
MAJOR.MINOR.1, and a 3-component MAJOR.MINOR.PATCH (PATCH an integer) to
MAJOR.MINOR.(PATCH+1) with MAJOR.MINOR unchanged; any other component count
fails with the unsupported-version-shape error; and
`next_version "1" = "1.1"`, `next_version "2.3" = "2.3.1"`,
`next_version "2.3.4" = "2.3.5"`, `next_version "1.2.3.4"` fails. -/
theorem next_version_shape_spec :
    (∀ s major, pySplitDot s = [major] →
      next_version s = .ok (major ++ ".1"))
  ∧ (∀ s major minor, pySplitDot s = [major, minor] →
      next_version s = .ok (major ++ "." ++ minor ++ ".1"))
  ∧ (∀ s major minor patch n, pySplitDot s = [major, minor, patch] →
      pyInt patch = some n →
      next_version s = .ok (major ++ "." ++ minor ++ "." ++ toString (n + 1)))
  ∧ (∀ s, (pySplitDot s).length ≠ 1 → (pySplitDot s).length ≠ 2 →
      (pySplitDot s).length ≠ 3 →
      next_version s = .error .unsupportedVersionShape)
  ∧ next_version "1" = .ok "1.1"
  ∧ next_version "2.3" = .ok "2.3.1"
  ∧ next_version "2.3.4" = .ok "2.3.5"
  ∧ next_version "1.2.3.4" = .error .unsupportedVersionShape := by
  refine ⟨?_, ?_, ?_, ?_, by decide, by decide, by decide, by decide⟩
  · intro s major h; simp [next_version, h]
  · intro s major minor h; simp [next_version, h]
  · intro s major minor patch n h hn; simp [next_version, h, hn]
  · intro s h1 h2 h3
    rcases hsp : pySplitDot s with _ | ⟨a, _ | ⟨b, _ | ⟨c, _ | ⟨d, l⟩⟩⟩⟩
    · simp [next_version, hsp]
    · rw [hsp] at h1; simp at h1
    · rw [hsp] at h2; simp at h2
    · rw [hsp] at h3; simp at h3
    · simp [next_version, hsp]

/-- C3 witness: the unsupported-shape branch applied at `"9.9.9.9"`. -/
theorem next_version_shape_spec_witness :
    next_version "9.9.9.9" = .error .unsupportedVersionShape :=
  next_version_shape_spec.2.2.2.1 "9.9.9.9" (by decide) (by decide) (by decide)

/-- C9 (implicit): the version-increment algorithm never inspects the
content of the MAJOR or MINOR components — any 1- or 2-component string
succeeds by appending ".1" (`"foo" ↦ "foo.1"`, `"a.b" ↦ "a.b.1"`); in the
3-component case it succeeds exactly when `int(PATCH)` parses; and a
non-integer PATCH is the only content-based failure (every other failure is
the shape error for component counts outside 1–3). -/
theorem next_version_content_blind :
    next_version "foo" = .ok "foo.1"
  ∧ next_version "a.b" = .ok "a.b.1"
  ∧ (∀ s, ((pySplitDot s).length = 1 ∨ (pySplitDot s).length = 2) →
      ∃ v, next_version s = .ok v)
  ∧ (∀ s major minor patch, pySplitDot s = [major, minor, patch] →
      ((∃ v, next_version s = .ok v) ↔ (pyInt patch).isSome = true))
  ∧ (∀ s, next_version s = .error .invalidIntLiteral ↔
      ∃ major minor patch, pySplitDot s = [major, minor, patch] ∧
        pyInt patch = none) := by
  refine ⟨by decide, by decide, ?_, ?_, ?_⟩
  · intro s h
    rcases hsp : pySplitDot s with _ | ⟨a, _ | ⟨b, _ | ⟨c, l⟩⟩⟩
    · rw [hsp] at h; simp at h
    · exact ⟨a ++ ".1", by simp [next_version, hsp]⟩
    · exact ⟨a ++ "." ++ b ++ ".1", by simp [next_version, hsp]⟩
    · rw [hsp] at h; simp at h
  · intro s major minor patch h
    constructor
    · rintro ⟨v, hv⟩
      cases hp : pyInt patch with
      | some n => simp
      | none => simp [next_version, h, hp] at hv
    · intro hp
      rw [Option.isSome_iff_exists] at hp
      obtain ⟨n, hn⟩ := hp
      exact ⟨major ++ "." ++ minor ++ "." ++ toString (n + 1),
        by simp [next_version, h, hn]⟩
  · intro s
    constructor
    · intro h
      rcases hsp : pySplitDot s with _ | ⟨a, _ | ⟨b, _ | ⟨c, _ | ⟨d, l⟩⟩⟩⟩ <;>
        rw [next_version, hsp] at h
      · simp at h
      · simp at h
      · simp at h
      · refine ⟨a, b, c, rfl, ?_⟩
        cases hp : pyInt c with
        | some n => simp [hp] at h
        | none => rfl
      · simp at h
    · rintro ⟨major, minor, patch, hsp, hp⟩
      simp [next_version, hsp, hp]

/-- C9 witness: the 1-or-2-component success branch applied at `"x.y"`. -/
theorem next_version_content_blind_witness :
    ∃ v, next_version "x.y" = .ok v :=
  next_version_content_blind.2.2.1 "x.y" (Or.inr (by decide))

/-- C8: `get_version` returns `entity.version` whenever set; otherwise the
version component parsed from `entity.uri` by `URI_REGEX`; and when the
version is unset and the URI does not match the grammar (in particular
when `uri` is absent, since `str(None) = "None"`), it fails with the
cannot-parse `ValueError`. -/
theorem get_version_spec (e : VersionedSOFTEntity) :
    (∀ v, entityVersion e = some v → get_version e = .ok v)
  ∧ (∀ i, entityVersion e = none →
      uriRegexMatch (pyStr (entityUri e)) = some i →
      get_version e = .ok i.version)
  ∧ (entityVersion e = none → uriRegexMatch (pyStr (entityUri e)) = none →
      get_version e = .error .cannotParseURI)
  ∧ (entityVersion e = none → entityUri e = none →
      get_version e = .error .cannotParseURI) := by
  refine ⟨?_, ?_, ?_, ?_⟩
  · intro v hv; simp [get_version, hv]
  · intro i hv hi; simp [get_version, hv, hi]
  · intro hv hi; simp [get_version, hv, hi]
  · intro hv hu
    have hnone : uriRegexMatch (pyStr (entityUri e)) = none := by
      rw [hu]; decide
    simp [get_version, hv, hnone]

/-- C8 witness: the missing-version error at an entity with neither
`version` nor `uri`. -/
theorem get_version_spec_witness :
    get_version (Sum.inr bareEntity) = .error .cannotParseURI :=
  (get_version_spec (Sum.inr bareEntity)).2.2.2 rfl rfl

/-- C6: `close()` raises `BackendError` if and only if the backend is
already closed, leaving the state unchanged in that case; on an open
backend it raises nothing and sets `is_closed`; it never resets
`is_closed` to false (the transition is terminal); and a freshly
constructed backend starts open. -/
theorem backend_close_spec (s : BackendState) :
    ((Backend.close s).1.isSome ↔ s.is_closed = true)
  ∧ (s.is_closed = true → (Backend.close s).1 = some .alreadyClosed ∧
      (Backend.close s).2 = s)
  ∧ (s.is_closed = false → (Backend.close s).1 = none ∧
      (Backend.close s).2.is_closed = true)
  ∧ (s.is_closed = true → (Backend.close s).2.is_closed = true)
  ∧ (Backend.init s.settings).is_closed = false := by
  cases hs : s.is_closed <;> simp [Backend.close, Backend.init, hs]

/-- C6 witness: closing a freshly initialized backend raises nothing and
closes it. -/
theorem backend_close_spec_witness :
    (Backend.close (Backend.init ⟨⟩)).1 = none ∧
    (Backend.close (Backend.init ⟨⟩)).2.is_closed = true :=
  (backend_close_spec (Backend.init ⟨⟩)).2.2.1 rfl

/-- C7: `Backend.__contains__` routes a raw mapping through the resolver and
treats a failure list as not-contained (false, no exception); a resolved
mapping or a typed entity is looked up by `read (get_uri entity)`; a string
is looked up as the identity itself by `read`. -/
theorem backend_contains_spec (cfg : ServiceSettings)
    (readRecord : String → Option RawDoc) :
    (∀ d errs, soft_entity cfg true d = .errors errs →
      Backend.contains cfg readRecord (.dict d) = false)
  ∧ (∀ d e, soft_entity cfg true d = .entity e →
      Backend.contains cfg readRecord (.dict d) = (readRecord (get_uri e)).isSome)
  ∧ (∀ s, Backend.contains cfg readRecord (.str s) = (readRecord s).isSome)
  ∧ (∀ e, Backend.contains cfg readRecord (.entity e) =
      (readRecord (get_uri e)).isSome) := by
  refine ⟨?_, ?_, ?_, ?_⟩
  · intro d errs h; simp [Backend.contains, h]
  · intro d e h; simp [Backend.contains, h]
  · intro s; rfl
  · intro e; rfl

/-- C7 witness: an unresolvable raw mapping is reported not-contained. -/
theorem backend_contains_spec_witness :
    Backend.contains cfg0 (fun _ => none) (.dict emptyDoc) = false :=
  (backend_contains_spec cfg0 (fun _ => none)).1 emptyDoc
    [⟨"properties: field required"⟩, ⟨"properties: field required"⟩] rfl

theorem soft_entity_entity_cases {cfg : ServiceSettings} {b : Bool} {d : RawDoc}
    {e : VersionedSOFTEntity} (he : soft_entity cfg b d = .entity e) :
    (∃ e7, validateSOFT7 cfg d = .ok e7 ∧ e = .inl e7) ∨
    (∃ e5, validateSOFT5 cfg d = .ok e5 ∧ e = .inr e5) := by
  cases h7 : validateSOFT7 cfg d with
  | ok e7 =>
    left
    refine ⟨e7, rfl, ?_⟩
    have hs : soft_entity cfg b d = .entity (.inl e7) := by
      simp [soft_entity, soft_dialects, resolveLoop, h7, Except.map]
    rw [hs] at he
    injection he with he
    exact he.symm
  | error f7 =>
    cases h5 : validateSOFT5 cfg d with
    | ok e5 =>
      right
      refine ⟨e5, rfl, ?_⟩
      have hs : soft_entity cfg b d = .entity (.inr e5) := by
        simp [soft_entity, soft_dialects, resolveLoop, h7, h5, Except.map]
      rw [hs] at he
      injection he with he
      exact he.symm
    | error f5 =>
      cases b <;>
        simp [soft_entity, soft_dialects, resolveLoop, h7, h5, Except.map] at he

/-- C2: the resolver tries the dialects newest-first and returns the typed
entity of the first dialect that validates; when both fail it yields exactly
one failure per dialect, as a returned list when `return_errors` is true and
as the aggregate fatal error otherwise; it never produces both an entity and
failures. -/
theorem soft_entity_resolution_spec (cfg : ServiceSettings) (d : RawDoc) :
    (∀ e7, validateSOFT7 cfg d = .ok e7 →
      ∀ b, soft_entity cfg b d = .entity (.inl e7))
  ∧ (∀ f7 e5, validateSOFT7 cfg d = .error f7 → validateSOFT5 cfg d = .ok e5 →
      ∀ b, soft_entity cfg b d = .entity (.inr e5))
  ∧ (∀ f7 f5, validateSOFT7 cfg d = .error f7 → validateSOFT5 cfg d = .error f5 →
      soft_entity cfg true d = .errors [f7, f5] ∧
      soft_entity cfg false d = .fatal [f7, f5])
  ∧ (∀ b e errs, soft_entity cfg b d = .entity e →
      soft_entity cfg b d ≠ .errors errs ∧ soft_entity cfg b d ≠ .fatal errs) := by
  refine ⟨?_, ?_, ?_, ?_⟩
  · intro e7 h7 b
    simp [soft_entity, soft_dialects, resolveLoop, h7, Except.map]
  · intro f7 e5 h7 h5 b
    simp [soft_entity, soft_dialects, resolveLoop, h7, h5, Except.map]
  · intro f7 f5 h7 h5
    constructor <;>
      simp [soft_entity, soft_dialects, resolveLoop, h7, h5, Except.map]
  · intro b e errs he
    constructor <;> rw [he] <;> simp

/-- C2 witness: on the empty document both dialects fail with their
required-properties error; with `return_errors` the list of exactly one
failure per dialect is returned, otherwise the same list is fatal. -/
theorem soft_entity_resolution_spec_witness :
    soft_entity cfg0 true emptyDoc =
      .errors [⟨"properties: field required"⟩, ⟨"properties: field required"⟩] ∧
    soft_entity cfg0 false emptyDoc =
      .fatal [⟨"properties: field required"⟩, ⟨"properties: field required"⟩] :=
  (soft_entity_resolution_spec cfg0 emptyDoc).2.2.1
    ⟨"properties: field required"⟩ ⟨"properties: field required"⟩ rfl rfl

/-- C4: every entity the resolver returns satisfies the dialect invariant —
`uri` and `namespace`, when present, start with the configured base URL
string, and `meta` equals the single supported metadata-schema marker; a
document violating either condition fails validation under each dialect (a
per-dialect validation failure, not a fatal error). -/
theorem resolver_invariant_spec (cfg : ServiceSettings) (d : RawDoc) :
    (∀ b e, soft_entity cfg b d = .entity e →
      (∀ u, entityUri e = some u → pyStartsWith u cfg.base_url = true)
      ∧ (∀ ns, entityNamespace e = some ns → pyStartsWith ns cfg.base_url = true)
      ∧ entityMeta e = ENTITY_SCHEMA_URI)
  ∧ ((∃ u, d.uri = some u ∧ pyStartsWith u cfg.base_url = false) →
      (∃ f, validateSOFT5 cfg d = .error f) ∧
      (∃ f, validateSOFT7 cfg d = .error f))
  ∧ ((∃ ns, d.namespace_ = some ns ∧ pyStartsWith ns cfg.base_url = false) →
      (∃ f, validateSOFT5 cfg d = .error f) ∧
      (∃ f, validateSOFT7 cfg d = .error f))
  ∧ ((∃ m, d.meta = some m ∧ m ≠ ENTITY_SCHEMA_URI) →
      (∃ f, validateSOFT5 cfg d = .error f) ∧
      (∃ f, validateSOFT7 cfg d = .error f)) := by
  refine ⟨?_, ?_, ?_, ?_⟩
  · intro b e he
    rcases soft_entity_entity_cases he with ⟨e7, h7, rfl⟩ | ⟨e5, h5, rfl⟩
    · obtain ⟨_, _, hnsE, huriE, hmeta, huriChk, hnsChk, _, _⟩ := validateSOFT7_ok h7
      refine ⟨?_, ?_, hmeta⟩
      · intro u hu
        have hu' : e7.uri = some u := hu
        exact (huriChk u (huriE.symm.trans hu')).2
      · intro ns hns
        have hns' : e7.namespace_ = some ns := hns
        exact (hnsChk ns (hnsE.symm.trans hns')).2
    · obtain ⟨_, _, hnsE, huriE, hmeta, huriChk, hnsChk, _, _⟩ := validateSOFT5_ok h5
      refine ⟨?_, ?_, hmeta⟩
      · intro u hu
        have hu' : e5.uri = some u := hu
        exact (huriChk u (huriE.symm.trans hu')).2
      · intro ns hns
        have hns' : e5.namespace_ = some ns := hns
        exact (hnsChk ns (hnsE.symm.trans hns')).2
  · rintro ⟨u, hu, hpre⟩
    constructor
    · cases h5 : validateSOFT5 cfg d with
      | error f => exact ⟨f, rfl⟩
      | ok e5 =>
        obtain ⟨_, _, _, _, _, huriChk, _, _, _⟩ := validateSOFT5_ok h5
        exact absurd (huriChk u hu).2 (by simp [hpre])
    · cases h7 : validateSOFT7 cfg d with
      | error f => exact ⟨f, rfl⟩
      | ok e7 =>
        obtain ⟨_, _, _, _, _, huriChk, _, _, _⟩ := validateSOFT7_ok h7
        exact absurd (huriChk u hu).2 (by simp [hpre])
  · rintro ⟨ns, hns, hpre⟩
    constructor
    · cases h5 : validateSOFT5 cfg d with
      | error f => exact ⟨f, rfl⟩
      | ok e5 =>
        obtain ⟨_, _, _, _, _, _, hnsChk, _, _⟩ := validateSOFT5_ok h5
        exact absurd (hnsChk ns hns).2 (by simp [hpre])
    · cases h7 : validateSOFT7 cfg d with
      | error f => exact ⟨f, rfl⟩
      | ok e7 =>
        obtain ⟨_, _, _, _, _, _, hnsChk, _, _⟩ := validateSOFT7_ok h7
        exact absurd (hnsChk ns hns).2 (by simp [hpre])
  · rintro ⟨m, hm, hne⟩
    constructor
    · cases h5 : validateSOFT5 cfg d with
      | error f => exact ⟨f, rfl⟩
      | ok e5 =>
        obtain ⟨_, _, _, _, _, _, _, hmetaChk, _⟩ := validateSOFT5_ok h5
        exact absurd (hmetaChk m hm) hne
    · cases h7 : validateSOFT7 cfg d with
      | error f => exact ⟨f, rfl⟩
      | ok e7 =>
        obtain ⟨_, _, _, _, _, _, _, hmetaChk, _⟩ := validateSOFT7_ok h7
        exact absurd (hmetaChk m hm) hne

/-- C4 witness: a concretely resolved entity has a base-URL-prefixed `uri`
and the supported `meta` marker. -/
theorem resolver_invariant_spec_witness :
    pyStartsWith "http://onto-ns.com/meta/1.0/Foo" cfg0.base_url = true ∧
    entityMeta (.inr mismatchEntity) = ENTITY_SCHEMA_URI := by
  obtain ⟨hu, _, hm⟩ :=
    (resolver_invariant_spec cfg0 mismatchDoc).1 true (.inr mismatchEntity) rfl
  exact ⟨hu "http://onto-ns.com/meta/1.0/Foo" rfl, hm⟩

/-- C5: each dialect accepts a document only if `name`, `version` and
`namespace` are jointly present or jointly absent; a document supplying a
proper non-empty subset of the three is rejected by both dialects. -/
theorem cross_field_rule_spec (cfg : ServiceSettings) (d : RawDoc) :
    (∀ e5, validateSOFT5 cfg d = .ok e5 →
      (d.name = none ∧ d.version = none ∧ d.namespace_ = none) ∨
      (d.name ≠ none ∧ d.version ≠ none ∧ d.namespace_ ≠ none))
  ∧ (∀ e7, validateSOFT7 cfg d = .ok e7 →
      (d.name = none ∧ d.version = none ∧ d.namespace_ = none) ∨
      (d.name ≠ none ∧ d.version ≠ none ∧ d.namespace_ ≠ none))
  ∧ (((d.name = none ∨ d.version = none ∨ d.namespace_ = none) ∧
      ¬(d.name = none ∧ d.version = none ∧ d.namespace_ = none)) →
      (∃ f, validateSOFT5 cfg d = .error f) ∧
      (∃ f, validateSOFT7 cfg d = .error f)) := by
  refine ⟨?_, ?_, ?_⟩
  · intro e5 h
    exact (validateSOFT5_ok h).2.2.2.2.2.2.2.2
  · intro e7 h
    exact (validateSOFT7_ok h).2.2.2.2.2.2.2.2
  · rintro ⟨h1, h2⟩
    obtain ⟨f, hf⟩ := check_cross_subset h1 h2
    constructor
    · exact ⟨f, by unfold validateSOFT5; rw [hf]⟩
    · exact ⟨f, by unfold validateSOFT7; rw [hf]⟩

/-- C5 witness: a document with `name` and `version` but no `namespace` is
rejected by both dialects. -/
theorem cross_field_rule_spec_witness :
    (∃ f, validateSOFT5 cfg0 subsetDoc = .error f) ∧
    (∃ f, validateSOFT7 cfg0 subsetDoc = .error f) :=
  (cross_field_rule_spec cfg0 subsetDoc).2.2
    ⟨Or.inr (Or.inr rfl), by simp [subsetDoc]⟩

/-- C10 (implicit): `get_uri` returns the stored `uri` field whenever it is
set, ignoring `namespace`/`version`/`name`; only when `uri` is unset is the
canonical identifier built by concatenating the parts; and no validation
relates `uri` to the parts — a document whose stored `uri` disagrees with
the URI built from its parts still validates. -/
theorem get_uri_ignores_parts :
    (∀ e u, entityUri e = some u → get_uri e = u)
  ∧ (∀ e, entityUri e = none →
      get_uri e = pyStr (entityNamespace e) ++ "/" ++ pyStr (entityVersion e)
        ++ "/" ++ pyStr (entityName e))
  ∧ (validateSOFT5 cfg0 mismatchDoc = .ok mismatchEntity ∧
      get_uri (.inr mismatchEntity) = "http://onto-ns.com/meta/1.0/Foo" ∧
      pyStr (entityNamespace (.inr mismatchEntity)) ++ "/" ++
        pyStr (entityVersion (.inr mismatchEntity)) ++ "/" ++
        pyStr (entityName (.inr mismatchEntity)) =
        "http://onto-ns.com/meta/2.0/Bar" ∧
      ("http://onto-ns.com/meta/1.0/Foo" : String) ≠
        "http://onto-ns.com/meta/2.0/Bar") := by
  refine ⟨?_, ?_, by decide, by decide, by decide, by decide⟩
  · intro e u hu
    simp [get_uri, hu]
  · intro e he
    simp [get_uri, he]

/-- C10 witness: `get_uri` at the concretely validated entity returns its
stored `uri`, not the parts-built URI. -/
theorem get_uri_ignores_parts_witness :
    get_uri (Sum.inr mismatchEntity) = "http://onto-ns.com/meta/1.0/Foo" :=
  get_uri_ignores_parts.1 (Sum.inr mismatchEntity)
    "http://onto-ns.com/meta/1.0/Foo" rfl

theorem uriSegments_append (scheme host ver nm : List Char)
    (hh : host ≠ []) (hh2 : '/' ∉ host) (hv : ver ≠ []) (hv2 : '/' ∉ ver)
    (hn : nm ≠ []) (hn2 : '/' ∉ nm) (hn3 : '#' ∉ nm) (hn4 : '?' ∉ nm) :
    uriSegments scheme (host ++ ('/' :: (ver ++ ('/' :: nm)))) =
      some (scheme ++ host, ver, nm) := by
  have hsplit : (host ++ ('/' :: (ver ++ ('/' :: nm)))).splitOn '/' =
      [host, ver, nm] := by
    have hx : ∀ l ∈ [host, ver, nm], '/' ∉ l := by
      intro l hl
      simp only [List.mem_cons, List.not_mem_nil, or_false] at hl
      rcases hl with rfl | rfl | rfl
      · exact hh2
      · exact hv2
      · exact hn2
    have := List.splitOn_intercalate [host, ver, nm] '/' hx (by simp)
    have hic : [('/' : Char)].intercalate [host, ver, nm] =
        host ++ ('/' :: (ver ++ ('/' :: nm))) := by
      simp [List.intercalate, List.intersperse]
    rwa [hic] at this
  simp [uriSegments, hsplit, hh, hv, hn, hn3, hn4]

theorem toList_append (a b : String) :
    (a ++ b).toList = a.toList ++ b.toList :=
  String.data_append a b

theorem uriMatchList_http (host ver nm : List Char)
    (hh : host ≠ []) (hh2 : '/' ∉ host) (hv : ver ≠ []) (hv2 : '/' ∉ ver)
    (hn : nm ≠ []) (hn2 : '/' ∉ nm) (hn3 : '#' ∉ nm) (hn4 : '?' ∉ nm) :
    uriMatchList
        ('h':: 't':: 't':: 'p':: ':':: '/':: '/'::(host ++ ('/' :: (ver ++ ('/' :: nm))))) =
      some ('h':: 't':: 't':: 'p':: ':':: '/':: '/'::host, ver, nm) := by
  have h8 : ('h':: 't':: 't':: 'p':: ':':: '/':: '/'::
      (host ++ ('/' :: (ver ++ ('/' :: nm))))).take 8 ≠ "https://".toList := by
    intro hcontra
    rw [show "https://".toList = ['h','t','t','p','s',':','/','/'] from rfl] at hcontra
    injection hcontra with _ h1
    injection h1 with _ h2
    injection h2 with _ h3
    injection h3 with _ h4
    injection h4 with h5 _
    exact absurd h5 (by decide)
  have h7 : ('h':: 't':: 't':: 'p':: ':':: '/':: '/'::
      (host ++ ('/' :: (ver ++ ('/' :: nm))))).take 7 = "http://".toList := rfl
  have hdrop : ('h':: 't':: 't':: 'p':: ':':: '/':: '/'::
      (host ++ ('/' :: (ver ++ ('/' :: nm))))).drop 7 =
      host ++ ('/' :: (ver ++ ('/' :: nm))) := rfl
  unfold uriMatchList
  rw [if_neg h8, if_pos h7, hdrop,
    uriSegments_append _ host ver nm hh hh2 hv hv2 hn hn2 hn3 hn4]
  exact congrArg some (by
    rw [show "http://".toList = ['h','t','t','p',':','/','/'] from rfl]
    rfl)

theorem uriMatchList_https (host ver nm : List Char)
    (hh : host ≠ []) (hh2 : '/' ∉ host) (hv : ver ≠ []) (hv2 : '/' ∉ ver)
    (hn : nm ≠ []) (hn2 : '/' ∉ nm) (hn3 : '#' ∉ nm) (hn4 : '?' ∉ nm) :
    uriMatchList
        ('h':: 't':: 't':: 'p':: 's':: ':':: '/':: '/'::(host ++ ('/' :: (ver ++ ('/' :: nm))))) =
      some ('h':: 't':: 't':: 'p':: 's':: ':':: '/':: '/'::host, ver, nm) := by
  have h8 : ('h':: 't':: 't':: 'p':: 's':: ':':: '/':: '/'::
      (host ++ ('/' :: (ver ++ ('/' :: nm))))).take 8 = "https://".toList := rfl
  have hdrop : ('h':: 't':: 't':: 'p':: 's':: ':':: '/':: '/'::
      (host ++ ('/' :: (ver ++ ('/' :: nm))))).drop 8 =
      host ++ ('/' :: (ver ++ ('/' :: nm))) := rfl
  unfold uriMatchList
  rw [if_pos h8, hdrop,
    uriSegments_append _ host ver nm hh hh2 hv hv2 hn hn2 hn3 hn4]
  exact congrArg some (by
    rw [show "https://".toList = ['h','t','t','p','s',':','/','/'] from rfl]
    rfl)

/-- C1 counterexample: the identity whose namespace is the service's own
default base URL `http://onto-ns.com/meta` — a well-formed absolute http URL
with no trailing slash — with version `1.0` and name `Entity` is valid in
the claim's sense, yet the URI built by `get_uri` does not match `URI_REGEX`
at all, because the regex admits no `/` (hence no path) inside the
namespace's host part. -/
theorem uri_roundtrip_claim_counterexample :
    claimValidIdentity ⟨"http://onto-ns.com/meta", "1.0", "Entity"⟩ = true ∧
    build_uri ⟨"http://onto-ns.com/meta", "1.0", "Entity"⟩ =
      "http://onto-ns.com/meta/1.0/Entity" ∧
    parse_uri (build_uri ⟨"http://onto-ns.com/meta", "1.0", "Entity"⟩) = none :=
  ⟨by decide, by decide, by decide⟩

/-- C1 amended: the round trip `parse (build i) = i` holds exactly for the
namespace shape `URI_REGEX` accepts — scheme `http://` or `https://`
followed by a nonempty host containing no `/` (so no path, which also rules
out a trailing slash) — with version non-empty and slash-free, and name
non-empty containing none of `/`, `#`, `?`. -/
theorem uri_roundtrip_amended (scheme : String) (host ver nm : List Char)
    (hs : scheme = "http://" ∨ scheme = "https://")
    (hh : host ≠ []) (hh2 : '/' ∉ host) (hv : ver ≠ []) (hv2 : '/' ∉ ver)
    (hn : nm ≠ []) (hn2 : '/' ∉ nm) (hn3 : '#' ∉ nm) (hn4 : '?' ∉ nm) :
    parse_uri (build_uri
        ⟨scheme ++ String.mk host, String.mk ver, String.mk nm⟩) =
      some ⟨scheme ++ String.mk host, String.mk ver, String.mk nm⟩ := by
  have hbuild : (build_uri
      ⟨scheme ++ String.mk host, String.mk ver, String.mk nm⟩).toList
      = scheme.toList ++ (host ++ ('/' :: (ver ++ ('/' :: nm)))) := by
    show (scheme ++ String.mk host ++ "/" ++ String.mk ver ++ "/"
        ++ String.mk nm).toList = _
    rw [toList_append, toList_append, toList_append, toList_append,
      toList_append,
      show (String.mk host).toList = host from rfl,
      show (String.mk ver).toList = ver from rfl,
      show (String.mk nm).toList = nm from rfl,
      show "/".toList = ['/'] from rfl]
    simp [List.append_assoc]
  unfold parse_uri uriRegexMatch
  rw [hbuild]
  rcases hs with rfl | rfl
  · rw [show ("http://" : String).toList = ['h','t','t','p',':','/','/'] from rfl]
    simp only [List.cons_append, List.nil_append]
    rw [uriMatchList_http host ver nm hh hh2 hv hv2 hn hn2 hn3 hn4]
    rfl
  · rw [show ("https://" : String).toList = ['h','t','t','p','s',':','/','/'] from rfl]
    simp only [List.cons_append, List.nil_append]
    rw [uriMatchList_https host ver nm hh hh2 hv hv2 hn hn2 hn3 hn4]
    rfl

/-- C1 witness: the amended round trip at the concrete identity
`⟨"http://onto-ns.com", "1.0", "Entity"⟩` (path-free namespace). -/
theorem uri_roundtrip_amended_witness :
    parse_uri (build_uri ⟨"http://onto-ns.com", "1.0", "Entity"⟩) =
      some ⟨"http://onto-ns.com", "1.0", "Entity"⟩ := by
  have h := uri_roundtrip_amended "http://" "onto-ns.com".toList
    "1.0".toList "Entity".toList (Or.inl rfl) (by decide) (by decide)
    (by decide) (by decide) (by decide) (by decide) (by decide) (by decide)
  exact h
